import Mathlib

/-!
Shallow Lean embedding of the build-matrix resolution and orchestration engine
of the cloud image builder (module cloud_build/cloud_build.py and
cloud_build/rename.py), together with theorems settling the specification
claims about it.

Conventions of the embedding:
* times (Unix timestamps, durations) are integers counted in seconds;
* filesystem facts that the code only observes (existence and mtime of the
  cached tarball, whether the external builder created its output file, the
  captured stdout of an external rename program) enter as explicit parameters;
* Python dicts appear as association lists whose key column is duplicate-free;
* raised exceptions are modelled as explicit Option-valued results.
-/

namespace CloudBuild

/-! ### Cache/staleness oracle: CB.should_rebuild

The Python code:
  if not os.path.exists(tarball): rebuild = True
  else:
    lived = time.time() - os.path.getmtime(tarball)
    rebuild = timedelta(seconds=lived) > self.rebuild_after
    if rebuild: os.unlink(tarball)
  return rebuild

The artifact state is `Option Int`: `none` means the file does not exist,
`some m` means it exists with mtime `m`.  The result is the returned boolean
paired with the artifact state after the call (deleted or left in place). -/

def should_rebuild (mtime : Option Int) (now : Int) (rebuild_after : Int) :
    Bool × Option Int :=
  match mtime with
  | none => (true, none)
  | some m =>
    let lived := now - m
    if rebuild_after < lived then (true, none) else (false, some m)

/-! ### Build orchestrator: build_failed / ensure_build_success / create_images

`self.try_build_all = cfg.get('try_build_all', False)` in parse_config. -/

def parse_try_build_all (cfgValue : Option Bool) : Bool :=
  cfgValue.getD false

/-- A build unit as seen by error reporting: the (full_target, arch) pair. -/
structure BuildErr where
  target : String
  arch : String
deriving DecidableEq

/-- The exception raised by an orchestration run: either a single BuildError
(failFast path, raised by CB.error from build_failed) or a MultipleBuildErrors
aggregate (raised by ensure_build_success at the end under try_build_all). -/
inductive RunError
  | single (e : BuildErr)
  | multiple (es : List BuildErr)
deriving DecidableEq

/-- Outcome of attempting one build unit: `success` covers both a fresh cache
hit (build skipped, tarball reused) and a build after which the output file
exists; `failure` is a build after which the output file is absent, which is
when build_tarball calls build_failed. -/
inductive UnitOutcome
  | success
  | failure
deriving DecidableEq

def isSuccess : UnitOutcome → Bool
  | .success => true
  | .failure => false

def isFailure : UnitOutcome → Bool
  | .success => false
  | .failure => true

/-- Units are identified by their (full_target, arch) pair, as in the
arguments that create_images passes down to build_tarball / build_failed. -/
abbrev OUnit := String × String

def mkBuildErr (u : OUnit) : BuildErr := ⟨u.1, u.2⟩

/-- Result of one orchestration run over the unit list:
`attempted` are the units reached by the loop (in matrix order),
`published` the units whose tarball was hard-linked into the publish
directory by copy_image, `build_errors` the accumulated _build_errors list,
and `raised` the exception that escaped, if any. -/
structure RunResult where
  attempted : List OUnit
  published : List OUnit
  build_errors : List BuildErr
  raised : Option RunError
deriving DecidableEq

/-- The per-unit loop of create_images, with the outcome of each external
build supplied by `outcome`.  On failure, build_failed either appends a
BuildError to _build_errors (try_build_all) or raises it at once, which
aborts the loop before any later unit. -/
def runUnits (try_build_all : Bool) (outcome : OUnit → UnitOutcome) :
    List OUnit → RunResult
  | [] => ⟨[], [], [], none⟩
  | u :: rest =>
    match outcome u with
    | .success =>
      let r := runUnits try_build_all outcome rest
      ⟨u :: r.attempted, u :: r.published, r.build_errors, r.raised⟩
    | .failure =>
      if try_build_all then
        let r := runUnits try_build_all outcome rest
        ⟨u :: r.attempted, r.published, mkBuildErr u :: r.build_errors, r.raised⟩
      else
        ⟨[u], [], [], some (.single (mkBuildErr u))⟩

/-- CB.ensure_build_success: raise MultipleBuildErrors iff _build_errors is
non-empty. -/
def ensure_build_success (errs : List BuildErr) : Option RunError :=
  if errs.isEmpty then none else some (.multiple errs)

/-- create_images restricted to its failure bookkeeping: run the unit loop,
then (when no exception aborted the loop) ensure_build_success. -/
def runMatrix (try_build_all : Bool) (outcome : OUnit → UnitOutcome)
    (units : List OUnit) : RunResult :=
  let r := runUnits try_build_all outcome units
  match r.raised with
  | some e => ⟨r.attempted, r.published, r.build_errors, some e⟩
  | none =>
    ⟨r.attempted, r.published, r.build_errors,
      ensure_build_success r.build_errors⟩

/-! ### build_tarball's success signal (CB.call / CB.build_tarball) -/

/-- CB.call raises (via maybe_fail) iff fail_on_error is set and the child
process exited non-zero. -/
def call_raises (fail_on_error : Bool) (rc : Int) : Bool :=
  fail_on_error && rc != 0

/-- What the external `make` invocation did: its exit code and whether it
created the named output file. -/
structure BuilderRun where
  rc : Int
  creates_file : Bool
deriving DecidableEq

/-- Possible ends of one build_tarball call. -/
inductive TarballResult
  | raisedCmdError
  | result (path_returned : Bool) (failure_recorded : Bool)
deriving DecidableEq

/-- The control flow of build_tarball after the target strings are formed:
if should_rebuild said no, return the path at once; otherwise invoke make
through `self.call(cmd, fail_on_error=False)` and then decide success purely
by `os.path.exists(tarball_path)`, calling build_failed when absent. -/
def build_tarball_run (need_rebuild : Bool) (run : BuilderRun) : TarballResult :=
  if !need_rebuild then .result true false
  else if call_raises false run.rc then .raisedCmdError
  else if run.creates_file then .result true false
  else .result false true

/-! ### Regular expressions, as used by get_items and rename

The patterns the engine feeds to Python's `re` module in these code paths are
literal characters optionally followed by `?` (the concrete patterns are
the empty string, enabled?, disabled?, and literal rename patterns such as
docker).  The embedding covers exactly that fragment: an atom is a mandatory
character or an optional one. -/

inductive RAtom
  | ch (c : Char)
  | opt (c : Char)
deriving DecidableEq

/-- Length of the (greedy, backtracking) match of the pattern against a
prefix of the input, `none` when no prefix matches.  This is the semantics
of Python's re.match / leftmost match position for the fragment above. -/
def rmatchLen : List RAtom → List Char → Option Nat
  | [], _ => some 0
  | .ch c :: r, d :: s => if c == d then (rmatchLen r s).map (· + 1) else none
  | .ch _ :: _, [] => none
  | .opt c :: r, d :: s =>
    if c == d then
      match rmatchLen r s with
      | some n => some (n + 1)
      | none => rmatchLen r (d :: s)
    else rmatchLen r (d :: s)
  | .opt _ :: r, [] => rmatchLen r []

/-- Parse the supported pattern fragment: a character followed by `?` is
optional, any other character is mandatory. -/
def parseRegex : List Char → List RAtom
  | [] => []
  | [c] => [.ch c]
  | c :: d :: rest =>
    if d == '?' then .opt c :: parseRegex rest
    else .ch c :: parseRegex (d :: rest)

/-- Python `re.match(pattern, s)` viewed as a boolean: does the pattern match
a prefix of s? -/
def pymatch (pattern : String) (s : String) : Bool :=
  (rmatchLen (parseRegex pattern.data) s.data).isSome

/-! ### Constraint resolver: CB.get_items -/

/-- The constraint record attached to a package/service/script entry; every
field is optional in the configuration.  `branch` is the allow-list key the
code reads (constraints.get('branch', [branch])). -/
structure Constraints where
  exclude_images : List String := []
  exclude_branches : List String := []
  images : Option (List String) := none
  branch : Option (List String) := none
  state : Option String := none
deriving DecidableEq

/-- CB.get_items.  `data` is the items dict as an association list in
declaration order, an entry's `none` constraint record standing for a YAML
null (turned into the empty dict by the code). -/
def get_items (data : List (String × Option Constraints)) (image branch : String)
    (state_re0 : Option String) (default_state0 : Option String) :
    List String :=
  let state_re := state_re0.getD ""
  let default_state := default_state0.getD state_re
  data.filterMap fun entry =>
    let c := entry.2.getD {}
    if image ∈ c.exclude_images ∨ branch ∈ c.exclude_branches then none
    else
      let images := c.images.getD [image]
      let branches := c.branch.getD [branch]
      let state := c.state.getD default_state
      if image ∈ images ∧ branch ∈ branches ∧ pymatch state_re state then
        some entry.1
      else none

/-! ### Renaming engine: cloud_build/rename.py and CB.image_path -/

/-- Python re.sub(pattern, to, input): replace every non-overlapping,
leftmost-first match of the pattern by `to`; a zero-width match inserts the
replacement and the scan advances one character (and a trailing zero-width
match appends it once more at the end). -/
def rsubAux (r : List RAtom) (toVal : List Char) : Nat → List Char → List Char
  | _, [] =>
    match rmatchLen r [] with
    | some _ => toVal
    | none => []
  | 0, l => l
  | fuel + 1, c :: s =>
    match rmatchLen r (c :: s) with
    | some 0 => toVal ++ c :: rsubAux r toVal fuel s
    | some (n + 1) => toVal ++ rsubAux r toVal fuel (s.drop n)
    | none => c :: rsubAux r toVal fuel s

/-- The scan of rsubAux consumes at least one character per step, so the
input length is always enough fuel; the zero-fuel branch is unreachable. -/
def rsubChars (r : List RAtom) (toVal : List Char) (l : List Char) : List Char :=
  rsubAux r toVal l.length l

def pysub (pattern toVal name : String) : String :=
  ⟨rsubChars (parseRegex pattern.data) toVal.data name.data⟩

/-- The whitespace characters stripped by Python str.strip() on ASCII data. -/
def isPySpace (c : Char) : Bool :=
  c == ' ' || c == '\t' || c == '\n' || c == '\r' || c == '\x0b' || c == '\x0c'

/-- Python str.strip(): drop leading and trailing whitespace. -/
def pyStrip (s : String) : String :=
  ⟨((s.data.dropWhile isPySpace).reverse.dropWhile isPySpace).reverse⟩

/-- A rename rule as read from the configuration; each key optional. -/
structure RenameRule where
  regex : Option String := none
  toVal : Option String := none
  prog : Option String := none
deriving DecidableEq

/-- rename.rename.  Strategy dispatch follows the code's truthiness tests:
`if regex := rename_dict.get('regex')` is taken when the key is present and
the value a non-empty string, likewise for prog; otherwise the static `to`
applies.  `progOutput` is the stdout captured from the external program on
`name`; a missing `to` key in a taken regex/static branch is Python's
KeyError, modelled as `none`. -/
def rename (rd : RenameRule) (progOutput : String) (name : String) :
    Option String :=
  if rd.regex.getD "" ≠ "" then
    match rd.toVal with
    | some t => some (pysub (rd.regex.getD "") t name)
    | none => none
  else if rd.prog.getD "" ≠ "" then
    some (pyStrip progOutput)
  else
    rd.toVal

/-- The naming step of CB.image_path: the default name is rewritten only when
the image carries a (non-empty) rename rule. -/
def image_name (rename_rule : Option RenameRule) (progOutput : String)
    (default_name : String) : Option String :=
  match rename_rule with
  | none => some default_name
  | some rd => rename rd progOutput default_name

/-- The default published name built by CB.image_path. -/
def default_image_name (branch image arch kind : String) : String :=
  "alt-" ++ branch.toLower ++ "-" ++ image ++ "-" ++ arch ++ "." ++ kind

/-! ### Matrix expander: the loop nest of CB.create_images -/

/-- The per-image configuration fields the expansion reads. -/
structure ImageConf where
  kinds : List String
  exclude_arches : List String := []
  exclude_branches : List String := []
deriving DecidableEq

/-- The per-branch configuration fields the expansion reads. -/
structure BranchConf where
  arches : List String
deriving DecidableEq

/-- CB.skip_arch: arch listed in the image's exclude_arches. -/
def skip_arch (ic : ImageConf) (arch : String) : Bool :=
  arch ∈ ic.exclude_arches

/-- CB.skip_branch: branch listed in the image's exclude_branches. -/
def skip_branch (ic : ImageConf) (branch : String) : Bool :=
  branch ∈ ic.exclude_branches

/-- One concrete build unit: (branch, image, arch, kind). -/
abbrev BuildUnit := String × String × String × String

/-- Innermost loop: for kind in self.kinds_by_image(image). -/
def kindUnits (b i a : String) (kinds : List String) : List BuildUnit :=
  kinds.map fun k => (b, i, a, k)

/-- for arch in self.arches_by_branch(branch): if self.skip_arch(image, arch):
continue. -/
def archUnits (b i : String) (ic : ImageConf) (arches : List String) :
    List BuildUnit :=
  arches.flatMap fun a =>
    if skip_arch ic a then [] else kindUnits b i a ic.kinds

/-- for image in self.images: if self.skip_branch(image, branch): continue. -/
def imageUnits (b : String) (bc : BranchConf)
    (images : List (String × ImageConf)) : List BuildUnit :=
  images.flatMap fun e =>
    if skip_branch e.2 b then [] else archUnits b e.1 e.2 bc.arches

/-- The full expansion order of create_images: branches outermost, then
images, arches, kinds, with the two skip rules applied.  `branches` and
`images` are the configuration dicts as association lists. -/
def expandMatrix (branches : List (String × BranchConf))
    (images : List (String × ImageConf)) : List BuildUnit :=
  branches.flatMap fun e => imageUnits e.1 e.2 images

/-! ### Artifact cache naming: the head of CB.build_tarball -/

/-- CB.escape_branch: re.sub(r'\.', '_', branch) replaces every dot. -/
def escape_branch (branch : String) : String :=
  ⟨branch.data.map fun c => if c == '.' then '_' else c⟩

/-- re.sub(r'.*/', '', s) on a newline-free string: drop everything up to and
including the last slash. -/
def stripDirs (s : String) : String :=
  ⟨(s.data.reverse.takeWhile (fun c => c ≠ '/')).reverse⟩

/-- The generated cache filename of build_tarball:
target = f-string target_escapedBranch; image = re.sub(r'.*/', '', target);
tarball_name = f-string image-arch.kind. -/
def tarball_name (target branch arch kind : String) : String :=
  stripDirs (target ++ "_" ++ escape_branch branch) ++ "-" ++ arch ++ "." ++ kind

/-- tarball_path = self.out_dir / tarball_name, a path as component list. -/
def tarball_path (out_dir : List String) (target branch arch kind : String) :
    List String :=
  out_dir ++ [tarball_name target branch arch kind]

/-! ### Publish topology resolver: remote template and images directories -/

/-- One token of the remote address template: literal text or one of the two
placeholders.  str.format concatenates the rendered tokens. -/
inductive RTok
  | lit (s : String)
  | branch
  | arch
deriving DecidableEq

/-- self._remote.format(branch=b, arch=a) for the token list. -/
def formatRemote : List RTok → String → String → String
  | [], _, _ => ""
  | .lit s :: t, b, a => s ++ formatRemote t b a
  | .branch :: t, b, a => b ++ formatRemote t b a
  | .arch :: t, b, a => a ++ formatRemote t b a

/-- CB.is_remote_branch: the branch placeholder occurs in the template. -/
def is_remote_branch (t : List RTok) : Bool :=
  decide (RTok.branch ∈ t)

/-- CB.is_remote_arch: the arch placeholder occurs in the template. -/
def is_remote_arch (t : List RTok) : Bool :=
  decide (RTok.arch ∈ t)

/-- The configuration slice the publish-topology resolver reads. -/
structure PublishConf where
  images_dir_root : List String
  remote : List RTok
  branches : List (String × BranchConf)
deriving DecidableEq

/-- CB.all_arches: the union of every branch's arch set (a Python set turned
into a list; the embedding fixes the order by first occurrence, membership
being what the resolver relies on). -/
def all_arches (branches : List (String × BranchConf)) : List String :=
  (branches.flatMap fun e => e.2.arches).dedup

/-- CB.images_dirs_remotes_list: the (local directory, resolved remote
address) pairs, partitioned by which placeholders the template mentions. -/
def images_dirs_remotes_list (cfg : PublishConf) : List (List String × String) :=
  if is_remote_branch cfg.remote then
    cfg.branches.flatMap fun e =>
      if is_remote_arch cfg.remote then
        e.2.arches.map fun a =>
          (cfg.images_dir_root ++ [e.1, a], formatRemote cfg.remote e.1 a)
      else
        [(cfg.images_dir_root ++ [e.1], formatRemote cfg.remote e.1 "")]
  else
    if is_remote_arch cfg.remote then
      (all_arches cfg.branches).map fun a =>
        (cfg.images_dir_root ++ [a], formatRemote cfg.remote "" a)
    else
      [(cfg.images_dir_root, formatRemote cfg.remote "" "")]

/-- CB.images_dir: the local directory an artifact of (branch, arch) is
placed into. -/
def images_dir (cfg : PublishConf) (branch arch : String) : List String :=
  let d := cfg.images_dir_root
  let d := if is_remote_branch cfg.remote then d ++ [branch] else d
  if is_remote_arch cfg.remote then d ++ [arch] else d

/-! ## Theorems -/

/-- C3: should_rebuild returns true on a missing artifact; on an existing
artifact it deletes the file and returns true exactly when the age now - mtime
strictly exceeds the rebuild_after threshold, and otherwise returns false and
leaves the file in place; in particular with a 1-day (86400 s) threshold an
artifact 2 hours (7200 s) old is kept and skipped while one 2 days (172800 s)
old is deleted and rebuilt. -/
theorem should_rebuild_spec (now m : Int) (threshold : Int) :
    should_rebuild none now threshold = (true, none) ∧
    should_rebuild (some m) now threshold =
      (if threshold < now - m then (true, none) else (false, some m)) ∧
    should_rebuild (some (now - 7200)) now 86400 = (false, some (now - 7200)) ∧
    should_rebuild (some (now - 172800)) now 86400 = (true, none) := by
  refine ⟨rfl, rfl, ?_, ?_⟩
  · simp only [should_rebuild]
    rw [if_neg (by omega)]
  · simp only [should_rebuild]
    rw [if_pos (by omega)]

/-- C10: an existing artifact whose age equals the threshold exactly is
treated as fresh: should_rebuild returns false and does not delete it,
because staleness is a strict greater-than comparison. -/
theorem should_rebuild_boundary (now threshold : Int) :
    should_rebuild (some (now - threshold)) now threshold =
      (false, some (now - threshold)) := by
  simp only [should_rebuild]
  rw [if_neg (by omega)]

/-- C5 counterexample: it is not the case that a non-zero exit code of the
builder process is treated as a failure of the unit; a run with exit code 1
that nevertheless created the output file is recorded as a success. -/
theorem build_tarball_exit_counterexample :
    ¬ ∀ run : BuilderRun, run.rc ≠ 0 →
        build_tarball_run true run = .result false true := by
  intro h
  exact absurd (h ⟨1, true⟩ (by decide)) (by decide)

/-- C5 amended: build_tarball uses presence of the named output file as the
only success signal: when a rebuild is needed the unit is recorded as failed
iff the output file is absent after the builder runs, the builder's exit code
playing no role because the builder is invoked with fail_on_error disabled
(so the call never raises either); on a cache hit the path is returned with
no failure. -/
theorem build_tarball_file_presence (run : BuilderRun) :
    build_tarball_run true run =
      (if run.creates_file then .result true false else .result false true) ∧
    build_tarball_run false run = .result true false ∧
    call_raises false run.rc = false := by
  refine ⟨?_, rfl, rfl⟩
  simp [build_tarball_run, call_raises]

theorem isEmpty_map_eq {α β : Type} (f : α → β) (l : List α) :
    (l.map f).isEmpty = l.isEmpty := by
  cases l <;> rfl

theorem runUnits_tryAll (outcome : OUnit → UnitOutcome) (units : List OUnit) :
    runUnits true outcome units =
      ⟨units, units.filter (fun u => isSuccess (outcome u)),
       (units.filter fun u => isFailure (outcome u)).map mkBuildErr, none⟩ := by
  induction units with
  | nil => rfl
  | cons u rest ih =>
    cases h : outcome u <;>
      simp [runUnits, h, ih, List.filter_cons, isSuccess, isFailure]

/-- C1: under try_build_all, the whole matrix is attempted; every unit whose
build succeeded (including the passing unit of the two-failures scenario) has
its artifact placed into the publish directory; a BuildError is recorded for
each failing unit, in matrix order; and the run raises exactly one aggregate
MultipleBuildErrors listing precisely those failures, or nothing when no unit
failed — as witnessed concretely by a matrix of two failing units and one
passing unit, and by an all-passing matrix. -/
theorem tryAll_aggregates (outcome : OUnit → UnitOutcome) (units : List OUnit) :
    (runMatrix true outcome units =
      ⟨units,
       units.filter (fun u => isSuccess (outcome u)),
       (units.filter fun u => isFailure (outcome u)).map mkBuildErr,
       if (units.filter fun u => isFailure (outcome u)).isEmpty then none
       else
         some (.multiple
           ((units.filter fun u => isFailure (outcome u)).map mkBuildErr))⟩) ∧
    (runMatrix true (fun u => if u.1 = "ok" then .success else .failure)
        [("bad1", "x86_64"), ("ok", "x86_64"), ("bad2", "aarch64")] =
      ⟨[("bad1", "x86_64"), ("ok", "x86_64"), ("bad2", "aarch64")],
       [("ok", "x86_64")],
       [⟨"bad1", "x86_64"⟩, ⟨"bad2", "aarch64"⟩],
       some (.multiple [⟨"bad1", "x86_64"⟩, ⟨"bad2", "aarch64"⟩])⟩) ∧
    (runMatrix true (fun _ => .success) [("a", "x"), ("b", "y")] =
      ⟨[("a", "x"), ("b", "y")], [("a", "x"), ("b", "y")], [], none⟩) := by
  refine ⟨?_, by decide, by decide⟩
  unfold runMatrix
  rw [runUnits_tryAll]
  simp only [ensure_build_success, isEmpty_map_eq]

theorem runUnits_failFast (outcome : OUnit → UnitOutcome)
    (pre post : List OUnit) (u : OUnit)
    (hpre : ∀ v ∈ pre, outcome v = .success)
    (hu : outcome u = .failure) :
    runUnits false outcome (pre ++ u :: post) =
      ⟨pre ++ [u], pre, [], some (.single (mkBuildErr u))⟩ := by
  induction pre with
  | nil => simp [runUnits, hu]
  | cons v pre ih =>
    have hv : outcome v = .success := hpre v (by simp)
    have ihh := ih (fun w hw => hpre w (by simp [hw]))
    simp [runUnits, hv, List.append_eq, ihh]

/-- C4: with try_build_all absent from the configuration (whose default is
false), the first unit whose build fails raises a BuildError immediately: the
attempted units are exactly the successful prefix plus the failing unit, and
no unit after it in matrix order is attempted. -/
theorem failFast_stops (outcome : OUnit → UnitOutcome)
    (pre post : List OUnit) (u : OUnit)
    (hpre : ∀ v ∈ pre, outcome v = .success)
    (hu : outcome u = .failure) :
    runMatrix false outcome (pre ++ u :: post) =
      ⟨pre ++ [u], pre, [], some (.single (mkBuildErr u))⟩ ∧
    parse_try_build_all none = false := by
  refine ⟨?_, rfl⟩
  unfold runMatrix
  rw [runUnits_failFast outcome pre post u hpre hu]

/-- Witness for C4 at a concrete three-unit matrix whose middle unit fails. -/
theorem failFast_stops_witness :
    runMatrix false (fun v => if v.1 = "bad" then .failure else .success)
        ([("a", "x")] ++ ("bad", "y") :: [("c", "z")]) =
      ⟨[("a", "x"), ("bad", "y")], [("a", "x")], [],
        some (.single ⟨"bad", "y"⟩)⟩ ∧
    parse_try_build_all none = false :=
  failFast_stops (fun v => if v.1 = "bad" then .failure else .success)
    [("a", "x")] [("c", "z")] ("bad", "y") (by decide) (by decide)

theorem assoc_val_eq {β : Type} {l : List (String × β)} {a : String}
    {b1 b2 : β} (h : (l.map Prod.fst).Nodup)
    (h1 : (a, b1) ∈ l) (h2 : (a, b2) ∈ l) : b1 = b2 := by
  induction l with
  | nil => cases h1
  | cons e t ih =>
    rw [List.map_cons, List.nodup_cons] at h
    rcases List.mem_cons.1 h1 with he1 | ht1 <;>
      rcases List.mem_cons.1 h2 with he2 | ht2
    · rw [← he1] at he2
      exact (Prod.mk.injEq _ _ _ _ ▸ he2).2.symm
    · exact absurd (List.mem_map_of_mem Prod.fst ht2)
        (by rw [← he1] at h; exact h.1)
    · exact absurd (List.mem_map_of_mem Prod.fst ht1)
        (by rw [← he2] at h; exact h.1)
    · exact ih h.2 ht1 ht2

/-- C2: for an entry of the resolver input whose constraints do not exclude
the current image or branch, get_items includes the item iff the image is in
the effective images allow-list (defaulting to the single current image when
the key is absent), the branch is in the effective branches allow-list
(defaulting to the single current branch when the key is absent), and the
item's effective state matches the state pattern as a regular-expression
prefix match; the empty pattern matches every state. -/
theorem get_items_spec (data : List (String × Option Constraints))
    (image branch item : String) (c0 : Option Constraints)
    (sre dst : Option String)
    (hkeys : (data.map Prod.fst).Nodup)
    (hmem : (item, c0) ∈ data)
    (hximg : image ∉ (c0.getD {}).exclude_images)
    (hxbr : branch ∉ (c0.getD {}).exclude_branches) :
    (item ∈ get_items data image branch sre dst ↔
      (image ∈ (c0.getD {}).images.getD [image] ∧
       branch ∈ (c0.getD {}).branch.getD [branch] ∧
       pymatch (sre.getD "")
         ((c0.getD {}).state.getD (dst.getD (sre.getD ""))) = true)) ∧
    (∀ s : String, pymatch "" s = true) := by
  constructor
  · unfold get_items
    simp only [List.mem_filterMap]
    constructor
    · rintro ⟨e, he, hfe⟩
      split_ifs at hfe with hx hc
      all_goals simp at hfe
      have hec : (item, e.2) ∈ data := by
        rw [← hfe]
        exact he
      have : e.2 = c0 := assoc_val_eq hkeys hec hmem
      rw [this] at hc
      exact hc
    · intro hc
      refine ⟨(item, c0), hmem, ?_⟩
      rw [if_neg ?_, if_pos ?_]
      · exact hc
      · intro h
        rcases h with h | h
        · exact hximg h
        · exact hxbr h
  · intro s
    rfl

/-- Witness for C2: a package constrained to image img1, not excluded for
(img1, br), is included for (img1, br) since the guards hold. -/
theorem get_items_spec_witness :
    ("pkgA" ∈ get_items
        [("pkgA", some ⟨[], [], some ["img1"], none, none⟩), ("pkgB", none)]
        "img1" "br" none none ↔
      ("img1" ∈ (some ["img1"] : Option (List String)).getD ["img1"] ∧
       "br" ∈ (none : Option (List String)).getD ["br"] ∧
       pymatch ((none : Option String).getD "")
         ((none : Option String).getD
           ((none : Option String).getD
             ((none : Option String).getD ""))) = true)) ∧
    (∀ s : String, pymatch "" s = true) :=
  get_items_spec
    [("pkgA", some ⟨[], [], some ["img1"], none, none⟩), ("pkgB", none)]
    "img1" "br" "pkgA" (some ⟨[], [], some ["img1"], none, none⟩) none none
    (by decide) (by decide) (by decide) (by decide)

/-- C6: rename applies the strategy selected by the rule's keys: with a
non-empty regex (and a to value) it returns the regular-expression
substitution applied to the default name, and the concrete rule
regex docker / to container maps alt-p9-docker-x86_64.tar.xz to
alt-p9-container-x86_64.tar.xz; with a non-empty prog it returns the
program's captured standard output stripped of surrounding whitespace, so a
program emitting custom.img plus a newline yields exactly custom.img; with
to alone it returns that value unconditionally; and an image without a
rename rule keeps the default name unchanged. -/
theorem rename_strategies (r t p po n : String)
    (hr : r ≠ "") (hp : p ≠ "") :
    (rename ⟨some r, some t, none⟩ po n = some (pysub r t n)) ∧
    (rename ⟨none, none, some p⟩ po n = some (pyStrip po)) ∧
    (rename ⟨none, some t, none⟩ po n = some t) ∧
    (image_name none po n = some n) ∧
    (rename ⟨some "docker", some "container", none⟩ ""
        "alt-p9-docker-x86_64.tar.xz"
      = some "alt-p9-container-x86_64.tar.xz") ∧
    (rename ⟨none, none, some "namer"⟩ "custom.img\n" "default.img"
      = some "custom.img") := by
  refine ⟨?_, ?_, rfl, rfl, by decide, by decide⟩
  · simp [rename, hr]
  · simp [rename, hp]

/-- Witness for C6 at concrete rule values. -/
theorem rename_strategies_witness :
    (("docker" : String) ≠ "") ∧ (("prg" : String) ≠ "") ∧
    ((rename ⟨some "docker", some "container", none⟩ "out" "a-docker.img"
        = some (pysub "docker" "container" "a-docker.img")) ∧
     (rename ⟨none, none, some "prg"⟩ "out" "a-docker.img"
        = some (pyStrip "out")) ∧
     (rename ⟨none, some "container", none⟩ "out" "a-docker.img"
        = some "container") ∧
     (image_name none "out" "a-docker.img" = some "a-docker.img") ∧
     (rename ⟨some "docker", some "container", none⟩ ""
         "alt-p9-docker-x86_64.tar.xz"
       = some "alt-p9-container-x86_64.tar.xz") ∧
     (rename ⟨none, none, some "namer"⟩ "custom.img\n" "default.img"
       = some "custom.img")) :=
  ⟨by decide, by decide,
    rename_strategies "docker" "container" "prg" "out" "a-docker.img"
      (by decide) (by decide)⟩

/-- C7 counterexample: a configuration in which an image's kinds list repeats
a kind makes the expansion emit the same (branch, image, arch, kind) tuple
twice, so the claimed uniqueness does not hold for all configurations. -/
theorem expandMatrix_dup_counterexample :
    ¬ (expandMatrix [("p9", ⟨["x86_64"]⟩)]
        [("docker", ⟨["tar.xz", "tar.xz"], [], []⟩)]).Nodup := by
  decide

theorem mem_kindUnits {u : BuildUnit} {b i a : String} {ks : List String}
    (h : u ∈ kindUnits b i a ks) : u.1 = b ∧ u.2.1 = i ∧ u.2.2.1 = a := by
  simp only [kindUnits, List.mem_map] at h
  obtain ⟨k, _, hk⟩ := h
  rw [← hk]
  exact ⟨rfl, rfl, rfl⟩

theorem kindUnits_nodup (b i a : String) {ks : List String} (h : ks.Nodup) :
    (kindUnits b i a ks).Nodup :=
  h.map fun x y hxy => by simpa using hxy

theorem mem_archUnits_ite {u : BuildUnit} {b i a : String} {ic : ImageConf}
    (h : u ∈ if skip_arch ic a then ([] : List BuildUnit)
             else kindUnits b i a ic.kinds) :
    u.1 = b ∧ u.2.1 = i ∧ u.2.2.1 = a := by
  split at h
  · cases h
  · exact mem_kindUnits h

theorem archUnits_nodup (b i : String) (ic : ImageConf) {arches : List String}
    (hA : arches.Nodup) (hK : ic.kinds.Nodup) :
    (archUnits b i ic arches).Nodup := by
  unfold archUnits
  rw [List.nodup_flatMap]
  refine ⟨fun a _ => ?_, ?_⟩
  · split
    · exact List.nodup_nil
    · exact kindUnits_nodup b i a hK
  · refine hA.imp fun {a a2} hne x hx hx2 => ?_
    exact hne ((mem_archUnits_ite hx).2.2.symm.trans (mem_archUnits_ite hx2).2.2)

theorem mem_imageUnits_ite {u : BuildUnit} {b : String} {bc : BranchConf}
    {e : String × ImageConf}
    (h : u ∈ if skip_branch e.2 b then ([] : List BuildUnit)
             else archUnits b e.1 e.2 bc.arches) :
    u.1 = b ∧ u.2.1 = e.1 := by
  split at h
  · cases h
  · simp only [archUnits, List.mem_flatMap] at h
    obtain ⟨a, _, ha⟩ := h
    exact ⟨(mem_archUnits_ite ha).1, (mem_archUnits_ite ha).2.1⟩

theorem imageUnits_nodup (b : String) (bc : BranchConf)
    {images : List (String × ImageConf)}
    (hi : (images.map Prod.fst).Nodup)
    (hA : bc.arches.Nodup)
    (hk : ∀ e ∈ images, (e : String × ImageConf).2.kinds.Nodup) :
    (imageUnits b bc images).Nodup := by
  unfold imageUnits
  rw [List.nodup_flatMap]
  refine ⟨fun e he => ?_, ?_⟩
  · split
    · exact List.nodup_nil
    · exact archUnits_nodup b e.1 e.2 hA (hk e he)
  · rw [List.Nodup, List.pairwise_map] at hi
    refine hi.imp fun {e e2} hne x hx hx2 => ?_
    exact hne ((mem_imageUnits_ite hx).2.symm.trans (mem_imageUnits_ite hx2).2)

theorem mem_imageUnits {u : BuildUnit} {b : String} {bc : BranchConf}
    {images : List (String × ImageConf)} (h : u ∈ imageUnits b bc images) :
    u.1 = b := by
  simp only [imageUnits, List.mem_flatMap] at h
  obtain ⟨e, _, he⟩ := h
  exact (mem_imageUnits_ite he).1

/-- C7 amended: the expansion contains no duplicate (branch, image, arch,
kind) tuple provided no image's kinds list repeats a kind; the branch, image
and arch collections are Python dict keys and therefore duplicate-free, but
the kinds list is taken verbatim from the configuration and a repeated entry
is reproduced in the expansion. -/
theorem expandMatrix_nodup (branches : List (String × BranchConf))
    (images : List (String × ImageConf))
    (hb : (branches.map Prod.fst).Nodup)
    (hi : (images.map Prod.fst).Nodup)
    (ha : ∀ e ∈ branches, (e : String × BranchConf).2.arches.Nodup)
    (hk : ∀ e ∈ images, (e : String × ImageConf).2.kinds.Nodup) :
    (expandMatrix branches images).Nodup := by
  unfold expandMatrix
  rw [List.nodup_flatMap]
  refine ⟨fun e he => imageUnits_nodup e.1 e.2 hi (ha e he) hk, ?_⟩
  rw [List.Nodup, List.pairwise_map] at hb
  refine hb.imp fun {e e2} hne x hx hx2 => ?_
  exact hne ((mem_imageUnits hx).symm.trans (mem_imageUnits hx2))

/-- Witness for the amended C7 at a small duplicate-free configuration. -/
theorem expandMatrix_nodup_witness :
    (expandMatrix [("p9", ⟨["x86_64", "aarch64"]⟩), ("p10", ⟨["x86_64"]⟩)]
      [("docker", ⟨["tar.xz"], [], []⟩), ("vm", ⟨["img", "qcow2"], [], []⟩)]).Nodup :=
  expandMatrix_nodup
    [("p9", ⟨["x86_64", "aarch64"]⟩), ("p10", ⟨["x86_64"]⟩)]
    [("docker", ⟨["tar.xz"], [], []⟩), ("vm", ⟨["img", "qcow2"], [], []⟩)]
    (by decide) (by decide) (by decide) (by decide)

/-- C8 counterexample: the generated cache filename does contain a branch
component (the escaped branch is embedded in the target stem), so two
branches building the same image, arch and kind get different cache paths —
refuting the claimed collision. -/
theorem tarball_path_counterexample :
    tarball_path ["out"] "vm/docker" "p9" "x86_64" "tar.xz" ≠
      tarball_path ["out"] "vm/docker" "p10" "x86_64" "tar.xz" := by
  decide

theorem escape_branch_no_slash {b : String} (h : '/' ∉ b.data) :
    '/' ∉ (escape_branch b).data := by
  intro hm
  simp only [escape_branch, List.mem_map] at hm
  obtain ⟨c, hc, he⟩ := hm
  by_cases hdot : c == '.'
  · rw [if_pos hdot] at he
    exact absurd he (by decide)
  · rw [if_neg hdot] at he
    rw [← he] at h
    exact h hc

theorem stripDirs_eq_self {s : String} (h : '/' ∉ s.data) : stripDirs s = s := by
  unfold stripDirs
  have ht : s.data.reverse.takeWhile (fun c => c ≠ '/') = s.data.reverse := by
    rw [List.takeWhile_eq_self_iff]
    intro x hx
    rw [List.mem_reverse] at hx
    simp only [ne_eq, decide_eq_true_eq]
    intro hxe
    rw [hxe] at hx
    exact h hx
  rw [ht, List.reverse_reverse]

/-- C8 amended: the artifact filename generated into the working output
directory is keyed by (image, escaped branch, arch, kind): the escaped
branch is part of the name, so for names free of the path separator the
cache paths of two branches building the same image, arch and kind coincide
exactly when the two branch names escape to the same identifier (as p.9 and
p_9 do); for branches with distinct escaped names the staleness check
therefore operates on distinct files. -/
theorem tarball_path_branch_keyed (out_dir : List String)
    (target b1 b2 arch kind : String)
    (ht : '/' ∉ target.data) (h1 : '/' ∉ b1.data) (h2 : '/' ∉ b2.data) :
    tarball_path out_dir target b1 arch kind =
        tarball_path out_dir target b2 arch kind ↔
      escape_branch b1 = escape_branch b2 := by
  have hcat : ∀ b : String, '/' ∉ b.data →
      '/' ∉ (target ++ "_" ++ escape_branch b).data := by
    intro b hbb hm
    rw [String.data_append, String.data_append] at hm
    rcases List.mem_append.1 hm with hmm | hmm
    · rcases List.mem_append.1 hmm with hm2 | hm2
      · exact ht hm2
      · exact absurd hm2 (by decide)
    · exact escape_branch_no_slash hbb hmm
  unfold tarball_path tarball_name
  rw [stripDirs_eq_self (hcat b1 h1), stripDirs_eq_self (hcat b2 h2)]
  constructor
  · intro heq
    have hn := List.append_cancel_left heq
    have hs := (List.cons.inj hn).1
    have hd := congrArg String.data hs
    simp only [String.data_append, List.append_assoc] at hd
    have hd2 := List.append_cancel_left (List.append_cancel_left hd)
    exact String.ext (List.append_cancel_right hd2)
  · intro heq
    rw [heq]

/-- Witness for the amended C8: with slash-free names, branches p9 and p10
have distinct escaped names and hence distinct cache paths. -/
theorem tarball_path_branch_keyed_witness :
    tarball_path ["out"] "docker" "p9" "x86_64" "tar.xz" =
        tarball_path ["out"] "docker" "p10" "x86_64" "tar.xz" ↔
      escape_branch "p9" = escape_branch "p10" :=
  tarball_path_branch_keyed ["out"] "docker" "p9" "p10" "x86_64" "tar.xz"
    (by decide) (by decide) (by decide)

theorem formatRemote_arch_eq {t : List RTok} (h : is_remote_arch t = false)
    (b a a2 : String) : formatRemote t b a = formatRemote t b a2 := by
  induction t with
  | nil => rfl
  | cons x t ih =>
    have hx : RTok.arch ∉ x :: t := of_decide_eq_false h
    have hxt : is_remote_arch t = false :=
      decide_eq_false fun hm => hx (List.mem_cons_of_mem x hm)
    cases x with
    | lit s => simp only [formatRemote, ih hxt]
    | branch => simp only [formatRemote, ih hxt]
    | arch => exact absurd (List.mem_cons_self _ _) hx

theorem formatRemote_branch_eq {t : List RTok} (h : is_remote_branch t = false)
    (b b2 a : String) : formatRemote t b a = formatRemote t b2 a := by
  induction t with
  | nil => rfl
  | cons x t ih =>
    have hx : RTok.branch ∉ x :: t := of_decide_eq_false h
    have hxt : is_remote_branch t = false :=
      decide_eq_false fun hm => hx (List.mem_cons_of_mem x hm)
    cases x with
    | lit s => simp only [formatRemote, ih hxt]
    | arch => simp only [formatRemote, ih hxt]
    | branch => exact absurd (List.mem_cons_self _ _) hx

/-- C9: for every branch of the configuration and every arch of that branch,
the local directory into which built artifacts are placed (images_dir) is
exactly the local member of the (directory, remote) pair the publish-topology
resolver produces for that branch and arch, the remote member being the
template formatted with them — local placement and the sync stage partition
identically, according to which placeholders the remote template mentions. -/
theorem images_dir_matches_topology (cfg : PublishConf) (b : String)
    (bc : BranchConf) (a : String)
    (hb : (b, bc) ∈ cfg.branches) (ha : a ∈ bc.arches) :
    (images_dir cfg b a, formatRemote cfg.remote b a) ∈
      images_dirs_remotes_list cfg := by
  unfold images_dir images_dirs_remotes_list
  by_cases hbr : is_remote_branch cfg.remote = true
  · by_cases har : is_remote_arch cfg.remote = true
    · simp only [hbr, har, if_true, List.mem_flatMap]
      refine ⟨(b, bc), hb, ?_⟩
      simp only [List.mem_map]
      exact ⟨a, ha, by simp [List.append_assoc]⟩
    · rw [Bool.not_eq_true] at har
      simp only [hbr, har, if_true, Bool.false_eq_true, if_false,
        List.mem_flatMap]
      refine ⟨(b, bc), hb, ?_⟩
      rw [formatRemote_arch_eq har b a ""]
      exact List.mem_singleton.2 rfl
  · rw [Bool.not_eq_true] at hbr
    by_cases har : is_remote_arch cfg.remote = true
    · simp only [hbr, har, Bool.false_eq_true, if_false, if_true,
        List.mem_map]
      refine ⟨a, ?_, ?_⟩
      · exact List.mem_dedup.2 (List.mem_flatMap.2 ⟨(b, bc), hb, ha⟩)
      · rw [formatRemote_branch_eq hbr b "" a]
    · rw [Bool.not_eq_true] at har
      simp only [hbr, har, Bool.false_eq_true, if_false]
      rw [formatRemote_branch_eq hbr b "" a, formatRemote_arch_eq har "" a ""]
      exact List.mem_singleton.2 rfl

/-- Witness for C9 at a branch-and-arch partitioned template. -/
theorem images_dir_matches_topology_witness :
    (images_dir
        ⟨["images"], [.lit "host:/pub/", .branch, .lit "/", .arch],
         [("p9", ⟨["x86_64", "aarch64"]⟩)]⟩ "p9" "aarch64",
      formatRemote [.lit "host:/pub/", .branch, .lit "/", .arch]
        "p9" "aarch64") ∈
      images_dirs_remotes_list
        ⟨["images"], [.lit "host:/pub/", .branch, .lit "/", .arch],
         [("p9", ⟨["x86_64", "aarch64"]⟩)]⟩ :=
  images_dir_matches_topology
    ⟨["images"], [.lit "host:/pub/", .branch, .lit "/", .arch],
     [("p9", ⟨["x86_64", "aarch64"]⟩)]⟩
    "p9" ⟨["x86_64", "aarch64"]⟩ "aarch64" (by decide) (by decide)

end CloudBuild
